import Mathlib

/-!
# Verification of the `RobotInertial` inertial motion model

Shallow embedding of the inertial motion model declared in
`src/flight/modules/SecondaryTelemetry/secondarytelemetry.c` (the file embeds
the header `robotInertial.hpp` of the RT-SLAM robot motion model).  The header
carries:

* the state codec (`splitState`, `unsplitState`, `splitControl`, `splitPert`),
  lines 308–371, which we embed directly over `Fin n → ℝ` vectors;
* the size accessors (`size`, `size_control`, `size_perturbation` and their
  virtual `my*` counterparts), lines 279–293;
* the parameterless virtual `move_func()` (lines 271–277), which we embed with
  explicit state passing over a record of the driver-owned fields;
* only the declaration and documented equations of the seven-argument
  `move_func` — its body (`robotInertial.cpp`) is not part of the sources, so
  the transition function and its two Jacobian outputs are modelled from the
  specification's equations (§4.1 of the spec) and marked as such.

Vectors are `Fin n → ℝ`; matrices are Mathlib's `Matrix (Fin m) (Fin n) ℝ`.
The quaternion convention is scalar-first, `q = (qw, qx, qy, qz)`, fixed
consistently across the composition operator, the rotation matrix and the
incremental rotation, as the spec (§9) requires.
-/

open scoped Matrix
open Filter

noncomputable section

namespace RobotInertial

/-- Dense real vector of a fixed dimension, modelling a `jblas::vec` of known
size. -/
abbrev Vec (n : ℕ) : Type := Fin n → ℝ

/-- `ublas::subrange(x, a, a + m)` / `project(x, range(a, a + m))`: the
length-`m` window of `x` starting at offset `a`. -/
def subrange {n : ℕ} (x : Vec n) (a m : ℕ) (h : a + m ≤ n) : Vec m :=
  fun i => x ⟨a + i.val, by omega⟩

/-- The six named sub-blocks of the 19-dimensional state vector
`x = [p q v ab wb g]`. -/
structure StateBlocks where
  p : Vec 3
  q : Vec 4
  v : Vec 3
  ab : Vec 3
  wb : Vec 3
  g : Vec 3

attribute [ext] StateBlocks

/-- `splitState` (header lines 308–316): extract `p`, `q`, `v`, `ab`, `wb`,
`g` from the flat state vector at the source's fixed offsets. -/
def splitState (x : Vec 19) : StateBlocks where
  p := subrange x 0 3 (by omega)
  q := subrange x 3 4 (by omega)
  v := subrange x 7 3 (by omega)
  ab := subrange x 10 3 (by omega)
  wb := subrange x 13 3 (by omega)
  g := subrange x 16 3 (by omega)

/-- `unsplitState` (header lines 330–338): recompose the flat state vector
from the six sub-blocks, writing each block back to its source offset. -/
def unsplitState (p : Vec 3) (q : Vec 4) (v ab wb g : Vec 3) : Vec 19 :=
  fun i =>
    if h3 : i.val < 3 then p ⟨i.val, h3⟩
    else if h7 : i.val < 7 then q ⟨i.val - 3, by omega⟩
    else if h10 : i.val < 10 then v ⟨i.val - 7, by omega⟩
    else if h13 : i.val < 13 then ab ⟨i.val - 10, by omega⟩
    else if h16 : i.val < 16 then wb ⟨i.val - 13, by omega⟩
    else g ⟨i.val - 16, by omega⟩

/-- `splitControl` (header lines 350–354): extract `am` and `wm` from the
6-dimensional control vector. -/
def splitControl (u : Vec 6) : Vec 3 × Vec 3 :=
  (subrange u 0 3 (by omega), subrange u 3 3 (by omega))

/-- `splitPert` (header lines 365–371): extract `an`, `wn`, `ar`, `wr` from
the 12-dimensional perturbation vector. -/
def splitPert (n : Vec 12) : Vec 3 × Vec 3 × Vec 3 × Vec 3 :=
  (subrange n 0 3 (by omega), subrange n 3 3 (by omega),
   subrange n 6 3 (by omega), subrange n 9 3 (by omega))

/-- `RobotInertial::size()` (header lines 279–281). -/
def size : ℕ := 19

/-- `RobotInertial::size_control()` (header lines 283–285). -/
def size_control : ℕ := 6

/-- `RobotInertial::size_perturbation()` (header lines 287–289). -/
def size_perturbation : ℕ := 12

/-- virtual `RobotInertial::mySize()` (header line 291). -/
def mySize : ℕ := size

/-- virtual `RobotInertial::mySize_control()` (header line 292). -/
def mySize_control : ℕ := size_control

/-- virtual `RobotInertial::mySize_perturbation()` (header line 293). -/
def mySize_perturbation : ℕ := size_perturbation

/-- Modelled from the spec: the quaternion composition operator `⊗` (the body
of the quaternion toolbox is not under `src/`; §4.1 specifies quaternion
composition for the orientation update).  Scalar-first Hamilton product. -/
def qProd (a b : Vec 4) : Vec 4 :=
  ![a 0 * b 0 - a 1 * b 1 - a 2 * b 2 - a 3 * b 3,
    a 0 * b 1 + a 1 * b 0 + a 2 * b 3 - a 3 * b 2,
    a 0 * b 2 - a 1 * b 3 + a 2 * b 0 + a 3 * b 1,
    a 0 * b 3 + a 1 * b 2 - a 2 * b 1 + a 3 * b 0]

/-- Modelled from the spec: the rotation matrix `R(q)` equivalent to a unit
quaternion (§4.1: "`R(q)` is the rotation matrix equivalent to quaternion
`q`"; the quaternion toolbox body is not under `src/`). -/
def q2R (q : Vec 4) : Matrix (Fin 3) (Fin 3) ℝ :=
  Matrix.of
    ![![q 0 ^ 2 + q 1 ^ 2 - q 2 ^ 2 - q 3 ^ 2,
        2 * (q 1 * q 2 - q 0 * q 3),
        2 * (q 1 * q 3 + q 0 * q 2)],
      ![2 * (q 1 * q 2 + q 0 * q 3),
        q 0 ^ 2 - q 1 ^ 2 + q 2 ^ 2 - q 3 ^ 2,
        2 * (q 2 * q 3 - q 0 * q 1)],
      ![2 * (q 1 * q 3 - q 0 * q 2),
        2 * (q 2 * q 3 + q 0 * q 1),
        q 0 ^ 2 - q 1 ^ 2 - q 2 ^ 2 + q 3 ^ 2]]

open Classical in
/-- Modelled from the spec: the incremental rotation quaternion
`Δq(w) = (cos(‖w‖/2), (w/‖w‖)·sin(‖w‖/2))` built from a rotation vector `w`
(§4.1 and §4.3; the quaternion-integrator body is not under `src/`).  The
zero-angle case returns the identity quaternion exactly, as §4.3 requires. -/
def v2q (w : Vec 3) : Vec 4 :=
  let angle := Real.sqrt (w 0 ^ 2 + w 1 ^ 2 + w 2 ^ 2)
  if angle = 0 then ![1, 0, 0, 0]
  else ![Real.cos (angle / 2),
         w 0 * (Real.sin (angle / 2) / angle),
         w 1 * (Real.sin (angle / 2) / angle),
         w 2 * (Real.sin (angle / 2) / angle)]

/-- Squared Euclidean norm of a quaternion. -/
def quatNormSq (q : Vec 4) : ℝ := q 0 ^ 2 + q 1 ^ 2 + q 2 ^ 2 + q 3 ^ 2

/-- Modelled from the spec: the Jacobian of `a ⊗ b` with respect to its first
factor `a`, as a function of `b` (§4.1 Jacobian assembly names the Jacobians
of quaternion composition; their bodies are not under `src/`). -/
def qProd_by_dq1 (b : Vec 4) : Matrix (Fin 4) (Fin 4) ℝ :=
  Matrix.of
    ![![b 0, -b 1, -b 2, -b 3],
      ![b 1,  b 0,  b 3, -b 2],
      ![b 2, -b 3,  b 0,  b 1],
      ![b 3,  b 2, -b 1,  b 0]]

/-- Modelled from the spec: the Jacobian of `a ⊗ b` with respect to its second
factor `b`, as a function of `a` (§4.1 Jacobian assembly; body not under
`src/`). -/
def qProd_by_dq2 (a : Vec 4) : Matrix (Fin 4) (Fin 4) ℝ :=
  Matrix.of
    ![![a 0, -a 1, -a 2, -a 3],
      ![a 1,  a 0, -a 3,  a 2],
      ![a 2,  a 3,  a 0, -a 1],
      ![a 3, -a 2,  a 1,  a 0]]

open Classical in
/-- Modelled from the spec: the Jacobian of `Δq` with respect to its
rotation-vector argument (§4.1: "chain rule through `Δq` w.r.t. the
angular-rate argument"; body not under `src/`), with the analytic small-angle
value at zero rotation. -/
def v2q_by_dv (w : Vec 3) : Matrix (Fin 4) (Fin 3) ℝ :=
  let angle := Real.sqrt (w 0 ^ 2 + w 1 ^ 2 + w 2 ^ 2)
  if angle = 0 then
    Matrix.of ![![0, 0, 0], ![1 / 2, 0, 0], ![0, 1 / 2, 0], ![0, 0, 1 / 2]]
  else
    let s := Real.sin (angle / 2)
    let c := Real.cos (angle / 2)
    let d := c / (2 * angle ^ 2) - s / angle ^ 3
    Matrix.of
      ![![-(s / (2 * angle)) * w 0, -(s / (2 * angle)) * w 1,
          -(s / (2 * angle)) * w 2],
        ![s / angle + w 0 * w 0 * d, w 0 * w 1 * d, w 0 * w 2 * d],
        ![w 1 * w 0 * d, s / angle + w 1 * w 1 * d, w 1 * w 2 * d],
        ![w 2 * w 0 * d, w 2 * w 1 * d, s / angle + w 2 * w 2 * d]]

/-- Modelled from the spec: the Jacobian of `R(q) · a` with respect to the
quaternion components (§4.1: "`∂v_new/∂q` = derivative of `R(q)·(am−ab)`
w.r.t. quaternion components (a 3×4 block)"; body not under `src/`).
Obtained by differentiating each entry of `q2R`. -/
def dRa_by_dq (q : Vec 4) (a : Vec 3) : Matrix (Fin 3) (Fin 4) ℝ :=
  Matrix.of
    ![![2 * (q 0 * a 0 - q 3 * a 1 + q 2 * a 2),
        2 * (q 1 * a 0 + q 2 * a 1 + q 3 * a 2),
        2 * (-(q 2) * a 0 + q 1 * a 1 + q 0 * a 2),
        2 * (-(q 3) * a 0 - q 0 * a 1 + q 1 * a 2)],
      ![2 * (q 3 * a 0 + q 0 * a 1 - q 1 * a 2),
        2 * (q 2 * a 0 - q 1 * a 1 - q 0 * a 2),
        2 * (q 1 * a 0 + q 2 * a 1 + q 3 * a 2),
        2 * (q 0 * a 0 - q 3 * a 1 + q 2 * a 2)],
      ![2 * (-(q 2) * a 0 + q 1 * a 1 + q 0 * a 2),
        2 * (q 3 * a 0 + q 0 * a 1 - q 1 * a 2),
        2 * (-(q 0) * a 0 + q 3 * a 1 - q 2 * a 2),
        2 * (q 1 * a 0 + q 2 * a 1 + q 3 * a 2)]]

/-- Modelled from the spec: the state Jacobian `XNEW_x` assembled blockwise
per §4.1 — identity on the diagonal, `∂p/∂v = I·dt`, `∂q/∂q` and `∂q/∂wb`
through the composition and `Δq` Jacobians (the latter scaled by `−dt`),
`∂v/∂q = ∂(R(q)·(am−ab))/∂q`, `∂v/∂ab = −R(q)`, `∂v/∂g = I`
(`robotInertial.cpp` is not under `src/`).  Here `a = am − ab` and
`wdt = (wm + wn − wb)·dt`. -/
def XNEWx (q : Vec 4) (a : Vec 3) (wdt : Vec 3) (dt : ℝ) :
    Matrix (Fin 19) (Fin 19) ℝ :=
  Matrix.of fun i j =>
    if _h3 : i.val < 3 then
      if j.val = i.val then 1 else if j.val = i.val + 7 then dt else 0
    else if _h7 : i.val < 7 then
      if hjq : 3 ≤ j.val ∧ j.val < 7 then
        qProd_by_dq1 (v2q wdt) ⟨i.val - 3, by omega⟩ ⟨j.val - 3, by omega⟩
      else if hjw : 13 ≤ j.val ∧ j.val < 16 then
        (qProd_by_dq2 q * v2q_by_dv wdt) ⟨i.val - 3, by omega⟩
          ⟨j.val - 13, by omega⟩ * (-dt)
      else 0
    else if _h10 : i.val < 10 then
      if hjq : 3 ≤ j.val ∧ j.val < 7 then
        dRa_by_dq q a ⟨i.val - 7, by omega⟩ ⟨j.val - 3, by omega⟩
      else if j.val = i.val then 1
      else if hjab : 10 ≤ j.val ∧ j.val < 13 then
        -(q2R q ⟨i.val - 7, by omega⟩ ⟨j.val - 10, by omega⟩)
      else if _hjg : 16 ≤ j.val then (if j.val = i.val + 9 then 1 else 0)
      else 0
    else
      if j.val = i.val then 1 else 0

/-- Modelled from the spec: the perturbation Jacobian `XNEW_pert` assembled
blockwise per §4.1 — `∂v/∂an = R(q)`, `∂q/∂wn` through the `Δq` chain rule
scaled by `+dt`, `∂ab/∂ar = I`, `∂wb/∂wr = I`, all else zero
(`robotInertial.cpp` is not under `src/`). -/
def XNEWpert (q : Vec 4) (wdt : Vec 3) (dt : ℝ) :
    Matrix (Fin 19) (Fin 12) ℝ :=
  Matrix.of fun i j =>
    if hq : 3 ≤ i.val ∧ i.val < 7 then
      if hjw : 3 ≤ j.val ∧ j.val < 6 then
        (qProd_by_dq2 q * v2q_by_dv wdt) ⟨i.val - 3, by omega⟩
          ⟨j.val - 3, by omega⟩ * dt
      else 0
    else if hv : 7 ≤ i.val ∧ i.val < 10 then
      if hjn : j.val < 3 then
        q2R q ⟨i.val - 7, by omega⟩ ⟨j.val, hjn⟩
      else 0
    else if hab : 10 ≤ i.val ∧ i.val < 13 then
      if hja : 6 ≤ j.val ∧ j.val < 9 then
        (if j.val - 6 = i.val - 10 then 1 else 0)
      else 0
    else if hwb : 13 ≤ i.val ∧ i.val < 16 then
      if hjr : 9 ≤ j.val then (if j.val - 9 = i.val - 13 then 1 else 0)
      else 0
    else 0

/-- Modelled from the spec: the seven-argument
`RobotInertial::move_func(x, u, n, dt, xnew, XNEW_x, XNEW_pert)` — its body
(`robotInertial.cpp`) is not under `src/`; only its declaration (header lines
268–269) and the documented transition equations (header lines 258–264 and
spec §4.1) are.  Per sub-block, with `am, wm` the measurements and
`an, wn, ar, wr` the perturbation sub-blocks:
`p⁺ = p + v·dt`, `v⁺ = v + R(q)·((am + an) − ab) + g`,
`q⁺ = q ⊗ Δq((wm + wn − wb)·dt)`, `ab⁺ = ab + ar`, `wb⁺ = wb + wr`,
`g⁺ = g`, together with the two Jacobian outputs. -/
def move_func (x : Vec 19) (u : Vec 6) (n : Vec 12) (dt : ℝ) :
    Vec 19 × Matrix (Fin 19) (Fin 19) ℝ × Matrix (Fin 19) (Fin 12) ℝ :=
  let s := splitState x
  let am := (splitControl u).1
  let wm := (splitControl u).2
  let an := (splitPert n).1
  let wn := (splitPert n).2.1
  let ar := (splitPert n).2.2.1
  let wr := (splitPert n).2.2.2
  let pnew : Vec 3 := fun i => s.p i + s.v i * dt
  let vnew : Vec 3 := fun i =>
    s.v i + (q2R s.q).mulVec (fun k => (am k + an k) - s.ab k) i + s.g i
  let wdt : Vec 3 := fun i => (wm i + wn i - s.wb i) * dt
  let qnew := qProd s.q (v2q wdt)
  let abnew : Vec 3 := fun i => s.ab i + ar i
  let wbnew : Vec 3 := fun i => s.wb i + wr i
  (unsplitState pnew qnew vnew abnew wbnew s.g,
   XNEWx s.q (fun k => am k - s.ab k) wdt dt,
   XNEWpert s.q wdt dt)

/-- A `jblas::vec` of unknown (dynamic) size, as used by the parameterless
virtual `move_func()`: a plain list of reals.  `vec xnew;` default-constructs
the empty vector. -/
abbrev DynVec : Type := List ℝ

/-- Read a dynamic vector as a fixed-size vector (out-of-range reads as 0;
the header's preconditions guarantee the sizes match on every real call). -/
def vecOfList (l : DynVec) (n : ℕ) : Vec n := fun i => l.getD i.val 0

/-- The seven-argument `move_func` lifted to dynamic vectors: convert the
arguments to fixed-size vectors, run the transition, return the new state as
a length-19 list together with the two Jacobians. -/
def move_funcL (x u n : DynVec) (dt : ℝ) :
    DynVec × Matrix (Fin 19) (Fin 19) ℝ × Matrix (Fin 19) (Fin 12) ℝ :=
  let r := move_func (vecOfList x 19) (vecOfList u 6) (vecOfList n 12) dt
  (List.ofFn r.1, r.2.1, r.2.2)

/-- The driver-owned fields of `RobotAbstract` that the parameterless virtual
`move_func()` reads and writes: the stored state, the control sample, the
perturbation, the time step and the two Jacobian outputs. -/
structure Robot where
  state : DynVec
  control : DynVec
  perturbation : DynVec
  dt_or_dx : ℝ
  XNEW_x : Matrix (Fin 19) (Fin 19) ℝ
  XNEW_pert : Matrix (Fin 19) (Fin 12) ℝ

/-- The parameterless virtual `RobotInertial::move_func()` (header lines
271–277), embedded statement by statement:
`vec x = state.x();` and `vec n = perturbation.x();` copy the driver-owned
vectors into locals, `vec xnew;` default-constructs an empty local, the
seven-argument overload is called with the local `x` as its output state
argument (so the prediction lands in the discarded local copy), and finally
`state.x() = xnew;` stores the untouched empty local into the robot state. -/
def move_func0 (r : Robot) : Robot :=
  let x := r.state
  let n := r.perturbation
  let xnew : DynVec := []
  let call := move_funcL x r.control n r.dt_or_dx
  { r with state := xnew, XNEW_x := call.2.1, XNEW_pert := call.2.2 }

/-- The concrete at-rest scenario of spec §8 as a flat state:
`x = [0,0,0, 1,0,0,0, 1,0,0, 0,0,0, 0,0,0, 0,0,-9.81]`. -/
def xScenario : Vec 19 := fun i =>
  if i.val = 3 then 1 else if i.val = 7 then 1
  else if i.val = 18 then -9.81 else 0

/-- The concrete control of spec §8: `am = [0,0,9.81]`, `wm = [0,0,0]`. -/
def uScenario : Vec 6 := fun i => if i.val = 2 then 9.81 else 0

/-- The zero perturbation vector (the filter evaluates the model at `n = 0`). -/
def zero12 : Vec 12 := fun _ => 0

/-- The zero control vector. -/
def zero6 : Vec 6 := fun _ => 0

/-- A valid state with identity orientation, zero position, velocity and
biases, and gravity `(0, 0, 1)`: used as concrete input for the `dt = 0`
boundary case. -/
def xGravity : Vec 19 := fun i =>
  if i.val = 3 then 1 else if i.val = 18 then 1 else 0

/-- The same state as `xGravity` with the gravity sub-block zeroed: the pair
differs only in the gravity sub-block. -/
def xNoGravity : Vec 19 := fun i => if i.val = 3 then 1 else 0

/-- Replace the gravity sub-block (offsets 16–18) of a state vector:
parametrizes "two input states differing only in the gravity sub-block". -/
def replaceG (x : Vec 19) (g' : Vec 3) : Vec 19 := fun i =>
  if h : 16 ≤ i.val then g' ⟨i.val - 16, by omega⟩ else x i

/-- The spec §8 scenario packaged as the driver-owned robot fields, with
`dt = 0.1`, zero perturbation and freshly zeroed Jacobian outputs. -/
def robotScenario : Robot where
  state := [0, 0, 0, 1, 0, 0, 0, 1, 0, 0, 0, 0, 0, 0, 0, 0, 0, 0, -9.81]
  control := [0, 0, 9.81, 0, 0, 0]
  perturbation := [0, 0, 0, 0, 0, 0, 0, 0, 0, 0, 0, 0]
  dt_or_dx := 0.1
  XNEW_x := 0
  XNEW_pert := 0

/-! ## Helper lemmas -/

theorem splitState_unsplitState (p : Vec 3) (q : Vec 4) (v ab wb g : Vec 3) :
    splitState (unsplitState p q v ab wb g) =
      { p := p, q := q, v := v, ab := ab, wb := wb, g := g } := by
  unfold splitState unsplitState subrange
  ext i <;> fin_cases i <;> simp

theorem splitState_moveFunc (x : Vec 19) (u : Vec 6) (n : Vec 12) (dt : ℝ) :
    splitState (move_func x u n dt).1 =
      { p := fun i => (splitState x).p i + (splitState x).v i * dt
        q := qProd (splitState x).q
          (v2q fun i =>
            ((splitControl u).2 i + (splitPert n).2.1 i - (splitState x).wb i)
              * dt)
        v := fun i =>
          (splitState x).v i
            + (q2R (splitState x).q).mulVec
                (fun k =>
                  ((splitControl u).1 k + (splitPert n).1 k)
                    - (splitState x).ab k) i
            + (splitState x).g i
        ab := fun i => (splitState x).ab i + (splitPert n).2.2.1 i
        wb := fun i => (splitState x).wb i + (splitPert n).2.2.2 i
        g := (splitState x).g } := by
  simp only [move_func]
  exact splitState_unsplitState _ _ _ _ _ _

theorem quatNormSq_qProd (a b : Vec 4) :
    quatNormSq (qProd a b) = quatNormSq a * quatNormSq b := by
  simp only [quatNormSq, qProd]
  simp
  ring

theorem quatNormSq_v2q (w : Vec 3) : quatNormSq (v2q w) = 1 := by
  unfold v2q
  set angle := Real.sqrt (w 0 ^ 2 + w 1 ^ 2 + w 2 ^ 2) with ha
  by_cases h : angle = 0
  · simp [h, quatNormSq]
  · have hsq : angle ^ 2 = w 0 ^ 2 + w 1 ^ 2 + w 2 ^ 2 := by
      rw [ha]
      exact Real.sq_sqrt (by positivity)
    have h1 : Real.cos (angle / 2) ^ 2 + Real.sin (angle / 2) ^ 2 = 1 :=
      Real.cos_sq_add_sin_sq _
    simp only [h, if_false, quatNormSq]
    simp only [Matrix.cons_val_zero, Matrix.cons_val_one, Matrix.head_cons]
    field_simp
    nlinarith [h1, hsq]

theorem v2q_comp_zero (w : Vec 3) :
    v2q w 0 = Real.cos (Real.sqrt (w 0 ^ 2 + w 1 ^ 2 + w 2 ^ 2) / 2) := by
  unfold v2q
  by_cases h : Real.sqrt (w 0 ^ 2 + w 1 ^ 2 + w 2 ^ 2) = 0
  · simp [h]
  · simp [h]

theorem v2q_comp_succ_bound (w : Vec 3) (j : Fin 3) :
    |v2q w j.succ| ≤ |w j| / 2 := by
  unfold v2q
  set angle := Real.sqrt (w 0 ^ 2 + w 1 ^ 2 + w 2 ^ 2) with ha
  have hnn : 0 ≤ angle := Real.sqrt_nonneg _
  by_cases h : angle = 0
  · have h2 : w 0 ^ 2 + w 1 ^ 2 + w 2 ^ 2 = 0 := by
      by_contra hc
      exact hc (by
        nlinarith [Real.sq_sqrt
          (show (0:ℝ) ≤ w 0 ^ 2 + w 1 ^ 2 + w 2 ^ 2 by positivity), h, ha])
    have hz0 : w 0 = 0 := by
      nlinarith [sq_nonneg (w 0), sq_nonneg (w 1), sq_nonneg (w 2)]
    have hz1 : w 1 = 0 := by
      nlinarith [sq_nonneg (w 0), sq_nonneg (w 1), sq_nonneg (w 2)]
    have hz2 : w 2 = 0 := by
      nlinarith [sq_nonneg (w 0), sq_nonneg (w 1), sq_nonneg (w 2)]
    simp only [h, if_true]
    fin_cases j <;> simp [hz0, hz1, hz2]
  · have hpos : 0 < angle := lt_of_le_of_ne hnn (Ne.symm h)
    have hs : |Real.sin (angle / 2) / angle| ≤ 1 / 2 := by
      rw [abs_div, abs_of_pos hpos, div_le_div_iff₀ hpos (by norm_num)]
      have hb := Real.abs_sin_le_abs (x := angle / 2)
      have hhalf : (0:ℝ) < angle / 2 := by linarith
      rw [abs_of_pos hhalf] at hb
      linarith
    simp only [h, if_false]
    have hval : (![Real.cos (angle / 2),
         w 0 * (Real.sin (angle / 2) / angle),
         w 1 * (Real.sin (angle / 2) / angle),
         w 2 * (Real.sin (angle / 2) / angle)] : Vec 4) j.succ
        = w j * (Real.sin (angle / 2) / angle) := by
      fin_cases j <;> simp
    rw [hval, abs_mul]
    calc |w j| * |Real.sin (angle / 2) / angle| ≤ |w j| * (1 / 2) :=
          mul_le_mul_of_nonneg_left hs (abs_nonneg _)
      _ = |w j| / 2 := by ring

theorem v2q_tendsto_id :
    Tendsto v2q (nhds 0) (nhds ![1, 0, 0, 0]) := by
  rw [tendsto_pi_nhds]
  intro i
  induction i using Fin.cases with
  | zero =>
      simp only [v2q_comp_zero]
      have hc : Continuous fun w : Vec 3 =>
          Real.cos (Real.sqrt (w 0 ^ 2 + w 1 ^ 2 + w 2 ^ 2) / 2) := by
        fun_prop
      have := hc.tendsto 0
      simpa using this
  | succ j =>
      have htgt : (![1, 0, 0, 0] : Vec 4) j.succ = 0 := by
        fin_cases j <;> simp
      rw [htgt]
      have hb : ∀ w : Vec 3, ‖v2q w j.succ‖ ≤ |w j| / 2 := fun w => by
        simpa [Real.norm_eq_abs] using v2q_comp_succ_bound w j
      have hg : Tendsto (fun w : Vec 3 => |w j| / 2) (nhds 0) (nhds 0) := by
        have hc : Continuous fun w : Vec 3 => |w j| / 2 := by fun_prop
        have := hc.tendsto 0
        simpa using this
      exact squeeze_zero_norm hb hg

theorem v2q_zero : v2q 0 = ![1, 0, 0, 0] := by
  simp [v2q]

theorem v2q_zero' : v2q (fun _ => 0) = ![1, 0, 0, 0] := by
  simp [v2q]

theorem qProd_unit_right (a : Vec 4) : qProd a ![1, 0, 0, 0] = a := by
  funext i
  fin_cases i <;> simp [qProd]

theorem qProd_by_dq1_one :
    qProd_by_dq1 ![1, 0, 0, 0] = (1 : Matrix (Fin 4) (Fin 4) ℝ) := by
  ext i j
  fin_cases i <;> fin_cases j <;>
    simp [qProd_by_dq1, Matrix.one_apply, Matrix.vecHead, Matrix.vecTail]

theorem one_apply_val (i j : Fin 19) :
    (1 : Matrix (Fin 19) (Fin 19) ℝ) i j = if j.val = i.val then 1 else 0 := by
  rw [Matrix.one_apply]
  by_cases hij : i = j
  · subst hij; simp
  · rw [if_neg hij, if_neg fun hv => hij (Fin.ext hv.symm)]

theorem splitState_replaceG (x : Vec 19) (g' : Vec 3) :
    splitState (replaceG x g') =
      { p := (splitState x).p, q := (splitState x).q, v := (splitState x).v,
        ab := (splitState x).ab, wb := (splitState x).wb, g := g' } := by
  unfold splitState replaceG subrange
  ext i <;> fin_cases i <;> norm_num

theorem XNEWx_entry_dt_zero (q : Vec 4) (a : Vec 3) (wdt : Vec 3)
    (hw : v2q wdt = ![1, 0, 0, 0]) (i j : Fin 19)
    (h : i.val < 7 ∨ 10 ≤ i.val) :
    XNEWx q a wdt 0 i j = (1 : Matrix (Fin 19) (Fin 19) ℝ) i j := by
  rw [one_apply_val]
  unfold XNEWx
  rw [Matrix.of_apply]
  rcases Nat.lt_or_ge i.val 3 with h3 | h3
  · rw [dif_pos h3]
    by_cases hj : j.val = i.val
    · simp [hj]
    · rw [if_neg hj, if_neg hj]
      split_ifs <;> rfl
  · rcases Nat.lt_or_ge i.val 7 with h7 | h7
    · rw [dif_neg (by omega), dif_pos h7]
      by_cases hjq : 3 ≤ j.val ∧ j.val < 7
      · rw [dif_pos hjq, hw, qProd_by_dq1_one]
        simp only [Matrix.one_apply, Fin.mk.injEq]
        split_ifs <;> first | rfl | omega
      · rw [dif_neg hjq]
        have hij : ¬ j.val = i.val := by omega
        rw [if_neg hij]
        by_cases hjw : 13 ≤ j.val ∧ j.val < 16
        · rw [dif_pos hjw]; ring
        · rw [dif_neg hjw]
    · rcases h with h' | h10
      · omega
      · rw [dif_neg (by omega), dif_neg (by omega), dif_neg (by omega)]

theorem XNEWpert_entry_dt_zero (q : Vec 4) (wdt : Vec 3) (i : Fin 19)
    (j : Fin 12) (h : i.val < 7 ∨ 16 ≤ i.val) :
    XNEWpert q wdt 0 i j = 0 := by
  unfold XNEWpert
  rw [Matrix.of_apply]
  split_ifs <;> first | rfl | omega | ring

theorem val0_4 : ((0 : Fin 4) : ℕ) = 0 := rfl

theorem val1_4 : ((1 : Fin 4) : ℕ) = 1 := rfl

theorem val2_4 : ((2 : Fin 4) : ℕ) = 2 := rfl

theorem val3_4 : ((3 : Fin 4) : ℕ) = 3 := rfl

theorem val0_3 : ((0 : Fin 3) : ℕ) = 0 := rfl

theorem val1_3 : ((1 : Fin 3) : ℕ) = 1 := rfl

theorem val2_3 : ((2 : Fin 3) : ℕ) = 2 := rfl

/-! ## Claim theorems -/

/-- Claim C2 — for every valid input, the velocity sub-block of the state
returned by `move_func` equals `v + R(q)·((am + an) − ab) + g`, where the
sub-blocks are taken by the codec from the state, control and perturbation
vectors. -/
theorem moveFunc_velocity_update (x : Vec 19) (u : Vec 6) (n : Vec 12)
    (dt : ℝ) (i : Fin 3) :
    (splitState (move_func x u n dt).1).v i =
      (splitState x).v i
        + (q2R (splitState x).q).mulVec
            (fun k =>
              ((splitControl u).1 k + (splitPert n).1 k)
                - (splitState x).ab k) i
        + (splitState x).g i := by
  rw [splitState_moveFunc]

/-- Claim C3 — the orientation sub-block of the state returned by `move_func`
is the quaternion product of the input orientation with the incremental
rotation `Δq((wm + wn − wb)·dt)`; moreover `Δq` is exactly the identity
quaternion at zero rotation and tends to the identity quaternion as the
rotation vector tends to `0` (no division by zero). -/
theorem moveFunc_orientation_update :
    (∀ (x : Vec 19) (u : Vec 6) (n : Vec 12) (dt : ℝ),
      (splitState (move_func x u n dt).1).q =
        qProd (splitState x).q
          (v2q fun i =>
            ((splitControl u).2 i + (splitPert n).2.1 i
              - (splitState x).wb i) * dt)) ∧
    v2q 0 = ![1, 0, 0, 0] ∧
    Tendsto v2q (nhds 0) (nhds ![1, 0, 0, 0]) := by
  refine ⟨fun x u n dt => ?_, v2q_zero, v2q_tendsto_id⟩
  rw [splitState_moveFunc]

/-- Claim C5 — the bias sub-blocks returned by `move_func` satisfy
`ab⁺ = ab + ar` and `wb⁺ = wb + wr` exactly, for every perturbation and every
value of `dt` (no scaling by `dt`). -/
theorem moveFunc_bias_random_walk (x : Vec 19) (u : Vec 6) (n : Vec 12)
    (dt : ℝ) :
    ((splitState (move_func x u n dt).1).ab =
        fun i => (splitState x).ab i + (splitPert n).2.2.1 i) ∧
    ((splitState (move_func x u n dt).1).wb =
        fun i => (splitState x).wb i + (splitPert n).2.2.2 i) := by
  rw [splitState_moveFunc]
  exact ⟨rfl, rfl⟩

/-- Claim C7 — recomposing with `unsplitState` the six sub-blocks obtained by
`splitState` yields the original 19-vector, element for element. -/
theorem unsplitState_splitState_id (x : Vec 19) :
    unsplitState (splitState x).p (splitState x).q (splitState x).v
      (splitState x).ab (splitState x).wb (splitState x).g = x := by
  funext i
  unfold unsplitState splitState subrange
  fin_cases i <;> norm_num

/-- Claim C8 — the codec maps the flat vectors to contiguous, non-overlapping
sub-blocks at the source's fixed offsets: `p = x[0..3)`, `q = x[3..7)`,
`v = x[7..10)`, `ab = x[10..13)`, `wb = x[13..16)`, `g = x[16..19)`,
`am = u[0..3)`, `wm = u[3..6)`, `an = n[0..3)`, `wn = n[3..6)`,
`ar = n[6..9)`, `wr = n[9..12)`. -/
theorem codec_fixed_offsets (x : Vec 19) (u : Vec 6) (n : Vec 12) :
    (∀ i : Fin 3, (splitState x).p i = x ⟨i.val, by omega⟩) ∧
    (∀ i : Fin 4, (splitState x).q i = x ⟨3 + i.val, by omega⟩) ∧
    (∀ i : Fin 3, (splitState x).v i = x ⟨7 + i.val, by omega⟩) ∧
    (∀ i : Fin 3, (splitState x).ab i = x ⟨10 + i.val, by omega⟩) ∧
    (∀ i : Fin 3, (splitState x).wb i = x ⟨13 + i.val, by omega⟩) ∧
    (∀ i : Fin 3, (splitState x).g i = x ⟨16 + i.val, by omega⟩) ∧
    (∀ i : Fin 3, (splitControl u).1 i = u ⟨i.val, by omega⟩) ∧
    (∀ i : Fin 3, (splitControl u).2 i = u ⟨3 + i.val, by omega⟩) ∧
    (∀ i : Fin 3, (splitPert n).1 i = n ⟨i.val, by omega⟩) ∧
    (∀ i : Fin 3, (splitPert n).2.1 i = n ⟨3 + i.val, by omega⟩) ∧
    (∀ i : Fin 3, (splitPert n).2.2.1 i = n ⟨6 + i.val, by omega⟩) ∧
    (∀ i : Fin 3, (splitPert n).2.2.2 i = n ⟨9 + i.val, by omega⟩) := by
  refine ⟨fun i => ?_, fun i => ?_, fun i => ?_, fun i => ?_, fun i => ?_,
    fun i => ?_, fun i => ?_, fun i => ?_, fun i => ?_, fun i => ?_,
    fun i => ?_, fun i => ?_⟩ <;>
    simp [splitState, splitControl, splitPert, subrange]

/-- Claim C9 — if the input orientation has unit norm, the orientation
sub-block produced by `move_func` has norm exactly 1 (over the reals, where
the incremental quaternion is exactly unit and the Hamilton product is
norm-multiplicative), for any control, perturbation and time step. -/
theorem moveFunc_quaternion_norm_preserved (x : Vec 19) (u : Vec 6)
    (n : Vec 12) (dt : ℝ)
    (h : quatNormSq (splitState x).q = 1) :
    Real.sqrt (quatNormSq ((splitState (move_func x u n dt).1).q)) = 1 := by
  rw [splitState_moveFunc]
  show Real.sqrt (quatNormSq (qProd _ _)) = 1
  rw [quatNormSq_qProd, quatNormSq_v2q, h, mul_one, Real.sqrt_one]

/-- Claim C1, counterexample — at the concrete valid state `xGravity`
(identity orientation, gravity `(0,0,1)`), zero control and perturbation and
`dt = 0`, the propagation is not the identity: the returned state differs
from the input (the velocity row picks up `R(q)·(am − ab) + g`), the state
Jacobian differs from `I₁₉` (the `∂v⁺/∂g` block is `I`, not `0`) and the
perturbation Jacobian differs from `0` (the `∂ab⁺/∂ar` block is `I`). -/
theorem moveFunc_dt_zero_not_identity :
    (move_func xGravity zero6 zero12 0).1 ≠ xGravity ∧
    (move_func xGravity zero6 zero12 0).2.1 ≠
      (1 : Matrix (Fin 19) (Fin 19) ℝ) ∧
    (move_func xGravity zero6 zero12 0).2.2 ≠
      (0 : Matrix (Fin 19) (Fin 12) ℝ) := by
  refine ⟨fun h => ?_, fun h => ?_, fun h => ?_⟩
  · have h9 := congrFun h ⟨9, by omega⟩
    norm_num [move_func, unsplitState, splitState, splitControl, splitPert,
      subrange, xGravity, zero6, zero12, q2R, Matrix.mulVec,
      Matrix.dotProduct, Fin.sum_univ_three, val0_4, val1_4, val2_4, val3_4,
      val0_3, val1_3, val2_3] at h9
  · have he := congrFun (congrFun h ⟨7, by omega⟩) ⟨16, by omega⟩
    norm_num [move_func, XNEWx, Matrix.one_apply] at he
  · have he := congrFun (congrFun h ⟨10, by omega⟩) ⟨6, by omega⟩
    norm_num [move_func, XNEWpert] at he

/-- Claim C1, amended — with `dt = 0` the position, orientation and gravity
sub-blocks of the returned state equal those of the input for every
perturbation, and the bias sub-blocks do so at the zero perturbation;
`XNEW_x` agrees with the identity matrix everywhere outside the velocity
rows (rows 7–9), and `XNEW_pert` vanishes everywhere outside the velocity
and bias rows (rows 7–15). -/
theorem moveFunc_dt_zero_partial_identity (x : Vec 19) (u : Vec 6)
    (n : Vec 12) :
    ((splitState (move_func x u n 0).1).p = (splitState x).p) ∧
    ((splitState (move_func x u n 0).1).q = (splitState x).q) ∧
    ((splitState (move_func x u n 0).1).g = (splitState x).g) ∧
    ((splitState (move_func x u zero12 0).1).ab = (splitState x).ab) ∧
    ((splitState (move_func x u zero12 0).1).wb = (splitState x).wb) ∧
    (∀ i j : Fin 19, i.val < 7 ∨ 10 ≤ i.val →
      (move_func x u n 0).2.1 i j = (1 : Matrix (Fin 19) (Fin 19) ℝ) i j) ∧
    (∀ (i : Fin 19) (j : Fin 12), i.val < 7 ∨ 16 ≤ i.val →
      (move_func x u n 0).2.2 i j = 0) := by
  have hw : v2q (fun i =>
      ((splitControl u).2 i + (splitPert n).2.1 i - (splitState x).wb i)
        * 0) = ![1, 0, 0, 0] := by
    simp only [mul_zero]
    exact v2q_zero'
  refine ⟨?_, ?_, ?_, ?_, ?_, ?_, ?_⟩
  · rw [splitState_moveFunc]
    funext i
    show (splitState x).p i + (splitState x).v i * 0 = (splitState x).p i
    ring
  · rw [splitState_moveFunc]
    show qProd (splitState x).q _ = (splitState x).q
    rw [hw, qProd_unit_right]
  · rw [splitState_moveFunc]
  · rw [splitState_moveFunc]
    funext i
    show (splitState x).ab i + (splitPert zero12).2.2.1 i = (splitState x).ab i
    simp [splitPert, subrange, zero12]
  · rw [splitState_moveFunc]
    funext i
    show (splitState x).wb i + (splitPert zero12).2.2.2 i = (splitState x).wb i
    simp [splitPert, subrange, zero12]
  · intro i j hij
    simp only [move_func]
    exact XNEWx_entry_dt_zero _ _ _ hw i j hij
  · intro i j hij
    simp only [move_func]
    exact XNEWpert_entry_dt_zero _ _ i j hij

/-- Claim C1, witness for the amended theorem — at the concrete scenario
state, control and zero perturbation with `dt = 0`, the position sub-block is
unchanged, the `(0,0)` entry of `XNEW_x` matches the identity and the `(0,0)`
entry of `XNEW_pert` is zero. -/
theorem moveFunc_dt_zero_partial_identity_witness :
    ((splitState (move_func xGravity uScenario zero12 0).1).p =
      (splitState xGravity).p) ∧
    (move_func xGravity uScenario zero12 0).2.1 0 0 =
      (1 : Matrix (Fin 19) (Fin 19) ℝ) 0 0 ∧
    (move_func xGravity uScenario zero12 0).2.2 0 0 = 0 :=
  ⟨(moveFunc_dt_zero_partial_identity xGravity uScenario zero12).1,
   (moveFunc_dt_zero_partial_identity xGravity uScenario
      zero12).2.2.2.2.2.1 0 0 (Or.inl (by decide)),
   (moveFunc_dt_zero_partial_identity xGravity uScenario
      zero12).2.2.2.2.2.2 0 0 (Or.inl (by decide))⟩

/-- Claim C4 (code bug) — evaluated at the concrete spec §8 scenario, the
parameterless virtual `move_func()` stores the default-constructed empty
local `xnew` into the robot state: the stored state is the empty vector, not
the 19-dimensional prediction that the seven-argument `move_func` wrote into
the discarded local copy of the state. -/
theorem move_func0_discards_prediction :
    (move_func0 robotScenario).state = [] ∧
    (move_funcL robotScenario.state robotScenario.control
        robotScenario.perturbation robotScenario.dt_or_dx).1.length = 19 ∧
    (move_func0 robotScenario).state ≠
      (move_funcL robotScenario.state robotScenario.control
        robotScenario.perturbation robotScenario.dt_or_dx).1 := by
  refine ⟨rfl, by simp [move_funcL], fun h => ?_⟩
  have hlen := congrArg List.length h
  simp [move_func0, move_funcL] at hlen

/-- Claim C6, counterexample — the states `xNoGravity` and `xGravity` agree
on every component outside the gravity sub-block (offsets 16–18), yet after
propagation their gravity output sub-blocks differ (gravity is an identity
transition, `g⁺ = g`), so it is not true that only the velocity sub-block of
the output differs. -/
theorem gravity_perturbation_not_velocity_only :
    (∀ i : Fin 16, xNoGravity ⟨i.val, by omega⟩ = xGravity ⟨i.val, by omega⟩) ∧
    (splitState (move_func xNoGravity zero6 zero12 1).1).g ≠
      (splitState (move_func xGravity zero6 zero12 1).1).g := by
  constructor
  · intro i
    have h18 : i.val ≠ 18 := by omega
    simp [xNoGravity, xGravity, h18]
  · intro hEq
    have h2 := congrFun hEq 2
    norm_num [move_func, unsplitState, splitState, subrange, xNoGravity,
      xGravity] at h2

/-- Claim C6, amended — perturbing only the gravity sub-block of the input
state changes exactly the velocity and gravity sub-blocks of the output:
the velocity sub-block changes by exactly the gravity difference
(`∂v⁺/∂g = I`), the gravity sub-block follows the identity transition
(`g⁺ = g`), and the position, orientation and bias sub-blocks are
unaffected. -/
theorem gravity_perturbation_blocks (x : Vec 19) (g' : Vec 3) (u : Vec 6)
    (n : Vec 12) (dt : ℝ) :
    ((splitState (move_func (replaceG x g') u n dt).1).p =
      (splitState (move_func x u n dt).1).p) ∧
    ((splitState (move_func (replaceG x g') u n dt).1).q =
      (splitState (move_func x u n dt).1).q) ∧
    ((splitState (move_func (replaceG x g') u n dt).1).ab =
      (splitState (move_func x u n dt).1).ab) ∧
    ((splitState (move_func (replaceG x g') u n dt).1).wb =
      (splitState (move_func x u n dt).1).wb) ∧
    (∀ i : Fin 3, (splitState (move_func (replaceG x g') u n dt).1).v i =
      (splitState (move_func x u n dt).1).v i
        + (g' i - (splitState x).g i)) ∧
    ((splitState (move_func (replaceG x g') u n dt).1).g = g') := by
  simp only [splitState_moveFunc, splitState_replaceG]
  refine ⟨trivial, trivial, trivial, trivial, fun i => by ring, trivial⟩

/-- Claim C9, witness — at the concrete valid state `xGravity` (whose
orientation block is the unit quaternion `(1,0,0,0)`), the scenario control,
zero perturbation and `dt = 1`, the propagated orientation has norm 1. -/
theorem moveFunc_quaternion_norm_preserved_witness :
    quatNormSq (splitState xGravity).q = 1 ∧
    Real.sqrt
      (quatNormSq ((splitState (move_func xGravity uScenario zero12 1).1).q))
      = 1 := by
  have h : quatNormSq (splitState xGravity).q = 1 := by
    norm_num [quatNormSq, splitState, subrange, xGravity, val0_4, val1_4,
      val2_4, val3_4]
  exact ⟨h, moveFunc_quaternion_norm_preserved xGravity uScenario zero12 1 h⟩

/-- Claim C10 — the size accessors return the fixed dimensions 19, 6 and 12,
and the virtual accessors return the same values. -/
theorem size_accessors :
    size = 19 ∧ size_control = 6 ∧ size_perturbation = 12 ∧
    mySize = 19 ∧ mySize_control = 6 ∧ mySize_perturbation = 12 :=
  ⟨rfl, rfl, rfl, rfl, rfl, rfl⟩

end RobotInertial

end
